import Mathlib

/-!
Shallow embedding of the bpass `blobformat` package (src/blobformat/format.go).

The package manipulates a JSON-shaped structure: a top-level map from entry
names to entries, where an entry is a map from field keys to dynamically
typed values (strings, numbers, lists, nested maps, null).  Go maps are
modelled as association lists with distinct keys; `m[k]` lookup and
`m[k] = v` assignment become `mapGet` and `mapSet`.  Go's in-place mutation
becomes explicit state passing: each mutator returns the (possibly
unchanged) store together with an optional error, where a Go `panic` on the
failure paths of `Get`/`Set` is modelled as an error value (the spec, §4.1
and §7, reads those aborts as typed errors, and nothing is mutated before
the abort).  `time.Now().Unix()` is passed in as an explicit `now : Int`.
-/

namespace Blobformat

/-- Dynamic value model for Go's `interface{}` as used by the package:
strings, `int64`, `float64`, `[]interface{}`, `map[string]interface{}`
and `nil`.  `float64` payloads are opaque (tagged by an integer bit
pattern stand-in): the modelled code only ever copies floats around and
never does arithmetic on them. -/
inductive Value where
  | str : String → Value
  | int : Int → Value
  | flt : Int → Value
  | list : List Value → Value
  | map : List (String × Value) → Value
  | null : Value

/-- Entries (`map[string]interface{}`) as association lists. -/
abbrev Entry := List (String × Value)

/-- Top-level store type (`Blobs`), mapping entry names to values that are
expected to be entry maps. -/
abbrev Blobs := List (String × Value)

/-- Go map lookup `v, ok := m[k]`: first binding of the key wins (keys of a
Go map are distinct, so the maps in this development have distinct keys). -/
def mapGet : List (String × Value) → String → Option Value
  | [], _ => none
  | (k1, v) :: rest, k => if k1 = k then some v else mapGet rest k

/-- Go map assignment `m[k] = v`: replaces the binding of the key if
present, otherwise adds one. -/
def mapSet : List (String × Value) → String → Value → List (String × Value)
  | [], k, v => [(k, v)]
  | (k1, v1) :: rest, k, v =>
    if k1 = k then (k, v) :: rest else (k1, v1) :: mapSet rest k v

def keyUser : String := "user"
def keyPass : String := "pass"
def keyTwoFactor : String := "twofactor"
def keyNotes : String := "notes"
def keyLabels : String := "labels"
def keyUpdated : String := "updated"
def keySnapshots : String := "snapshots"

/-- Keys that cannot be set to a string value through `Set`
(`protectedKeys` in format.go). -/
def protectedKeys : List String :=
  [keyTwoFactor, keyNotes, keyUpdated, keyLabels, keySnapshots]

/-- Errors of the modelled operations.  `notFound`, `badFormat` and
`protectedKey` model the `panic` calls of `get` and `Set` (nothing has been
mutated when they fire); `twoFactorParse` models the error returned by
`SetTwofactor` when the URI does not parse. -/
inductive BlobErr where
  | notFound : String → BlobErr
  | badFormat : String → BlobErr
  | protectedKey : String → BlobErr
  | twoFactorParse : BlobErr
deriving DecidableEq

/-- Models Go's `strings.ToLower` (ASCII case folding; every string this
development evaluates is ASCII). -/
def strToLower (s : String) : String := ⟨s.data.map Char.toLower⟩

/-- Models `(Blobs).get` from format.go: fetches the entry map for a name,
panicking (here: erroring) if the name is absent or the stored value is not
a map. -/
def Blobs.get (b : Blobs) (name : String) : Except BlobErr Entry :=
  match mapGet b name with
  | none => .error (.notFound name)
  | some (.map e) => .ok e
  | some _ => .error (.badFormat name)

/-- Models `(Blob).snapshot` from format.go: a fresh copy of the entry's
fields, skipping the `snapshots` key, keeping only values whose dynamic
type is `string`, `float64`, `int64` or `[]interface{}` (the slice is
shallow-copied, which is the identity here).  The Go loop ranges over a map
with distinct keys into a fresh map, so it is modelled as a filter. -/
def Blob.snapshot (e : Entry) : Entry :=
  e.filter fun p =>
    if p.1 = keySnapshots then false
    else
      match p.2 with
      | .str _ => true
      | .flt _ => true
      | .int _ => true
      | .list _ => true
      | _ => false

/-- Models `(Blob).addSnapshot` from format.go: reads the current
`snapshots` value, treating a missing key or a value that fails the
`[]interface{}` type assertion as the empty list (the comma-ok assertion
leaves `snaps` nil without failing), appends the fresh snapshot and stores
the result back. -/
def Blob.addSnapshot (e : Entry) : Entry :=
  let snaps : List Value :=
    match mapGet e keySnapshots with
    | some (.list l) => l
    | _ => []
  mapSet e keySnapshots (.list (snaps ++ [.map (Blob.snapshot e)]))

/-- Models `(Blob).touchUpdated` from format.go: `b.B[keyUpdated] = now`. -/
def Blob.touchUpdated (e : Entry) (now : Int) : Entry :=
  mapSet e keyUpdated (.int now)

/-- Models `(Blobs).Set` from format.go.  Note the final write is
`blob.B[name] = value` in the source: the value is stored under the entry
NAME, not under the lower-cased `key` that was just validated. -/
def Blobs.Set (b : Blobs) (name key value : String) (now : Int) :
    Option BlobErr × Blobs :=
  match Blobs.get b name with
  | .error err => (some err, b)
  | .ok e =>
    let key := strToLower key
    if protectedKeys.contains key then (some (.protectedKey key), b)
    else
      let e := Blob.addSnapshot e
      let e := Blob.touchUpdated e now
      let e := mapSet e name (.str value)
      (none, mapSet b name (.map e))

/-- Models `(Blob).NSnapshots` from format.go: 0 when the `snapshots` value
is missing or nil, the list length when it is a list, an error otherwise. -/
def Blob.NSnapshots (e : Entry) : Except String Nat :=
  match mapGet e keySnapshots with
  | none => .ok 0
  | some .null => .ok 0
  | some (.list snaps) => .ok snaps.length
  | some _ => .error "snapshots are stored in the wrong format"

/-- Models `(Blob).Snapshot` from format.go: index 0 is the most recent
snapshot, i.e. element `len - 1 - index` of the stored list.  The returned
value is the snapshot's field map (the source also decorates the display
name, which is diagnostic only). -/
def Blob.Snapshot (e : Entry) (index : Int) : Except String Entry :=
  match mapGet e keySnapshots with
  | none => .error "no snapshots"
  | some .null => .error "no snapshots"
  | some (.list snaps) =>
    if index < 0 ∨ (snaps.length : Int) ≤ index then
      .error "index out of range"
    else
      match snaps.get? (snaps.length - 1 - index.toNat) with
      | some (.map m) => .ok m
      | _ => .error "snapshot is stored in the wrong format"
  | some _ => .error "snapshots are stored in the wrong format"

/-- Result of an operation that may `panic` in Go. -/
inductive Panics (α : Type) where
  | ok : α → Panics α
  | panicked : Panics α
deriving DecidableEq

/-- Models `(Blob).User` from format.go: empty string when the key is
absent, otherwise the unchecked type assertion `user.(string)`, which
panics on any non-string value. -/
def Blob.User (e : Entry) : Panics String :=
  match mapGet e keyUser with
  | none => .ok ""
  | some (.str s) => .ok s
  | some _ => .panicked

/-- Models `(Blob).Pass` from format.go, same shape as `User`. -/
def Blob.Pass (e : Entry) : Panics String :=
  match mapGet e keyPass with
  | none => .ok ""
  | some (.str s) => .ok s
  | some _ => .panicked

/-- Models `strings.HasPrefix`. -/
def strHasPre (s p : String) : Bool := p.data.isPrefixOf s.data

/-- Hexadecimal digit characters, upper case, as `fmt`/`net/url` emit. -/
def hexUpper (n : Nat) : Char :=
  if n < 10 then Char.ofNat (48 + n) else Char.ofNat (55 + n)

/-- Percent-encoding of one byte-sized character. -/
def pctEncode (c : Char) : List Char :=
  ['%', hexUpper (c.toNat / 16 % 16), hexUpper (c.toNat % 16)]

/-- Characters `net/url` never escapes (RFC 3986 unreserved). -/
def isUnreserved (c : Char) : Bool :=
  c.isAlphanum || c = '-' || c = '_' || c = '.' || c = '~'

/-- Models `url.PathEscape` on the byte-sized characters this development
uses: unreserved characters and the path-segment sub-delimiters stay,
everything else is percent-encoded. -/
def pathEscape (s : String) : String :=
  ⟨s.data.flatMap fun c =>
    if isUnreserved c || c ∈ ['$', '&', '+', ',', ';', '=', ':', '@']
    then [c] else pctEncode c⟩

/-- Models `url.QueryEscape` on byte-sized characters: unreserved
characters stay, space becomes a plus, everything else is
percent-encoded. -/
def queryEscape (s : String) : String :=
  ⟨s.data.flatMap fun c =>
    if isUnreserved c then [c]
    else if c = ' ' then ['+'] else pctEncode c⟩

/-- Hexadecimal digit test. -/
def isHexDigitChar (c : Char) : Bool :=
  c.isDigit || ('a' ≤ c && c ≤ 'f') || ('A' ≤ c && c ≤ 'F')

/-- Checks that every percent sign is followed by two hex digits. -/
def validEscapes : List Char → Bool
  | [] => true
  | '%' :: a :: b :: rest =>
    isHexDigitChar a && isHexDigitChar b && validEscapes rest
  | '%' :: _ => false
  | _ :: rest => validEscapes rest

/-- Models the success condition of `url.Parse` as `otp.NewKeyFromURL`
(github.com/pquerna/otp) uses it: parsing fails on ASCII control
characters and on invalid percent-escapes, and succeeds otherwise.  This
approximates the full parser, but agrees with it on every URI this
development evaluates (no exotic ports, userinfo or non-ASCII input), and
`NewKeyFromURL` performs no validation beyond `url.Parse`: in particular
it does not inspect the scheme or the host (the seed type). -/
def urlParseOk (s : String) : Bool :=
  s.data.all (fun c => 32 ≤ c.toNat && c.toNat ≠ 127) && validEscapes s.data

/-- Extracts the characters after the first `://`. -/
def afterScheme : List Char → Option (List Char)
  | ':' :: '/' :: '/' :: rest => some rest
  | _ :: rest => afterScheme rest
  | [] => none

/-- Models `(otp.Key).Type`, which returns the host component of the
parsed URI (`"totp"` or `"hotp"`); for an `otpauth://` URI without
userinfo or port this is the text between `://` and the next `/`, `?` or
`#`. -/
def keyTypeOf (uri : String) : String :=
  match afterScheme uri.data with
  | some rest => ⟨rest.takeWhile fun c => c ≠ '/' && c ≠ '?' && c ≠ '#'⟩
  | none => ""

/-- Models `(Blobs).SetTwofactor` from format.go: a value without the
`otpauth://` scheme is wrapped into a synthesized TOTP URI
(`url.Values.Encode` of the single `secret` key is `"secret=" ++`
query-escape); then the URI is handed to `otp.NewKeyFromURL`, whose only
effect here is the parse check; on success the entry is snapshotted,
`updated` is touched and the URI is stored under `twofactor`.  No check of
the seed type is made. -/
def Blobs.SetTwofactor (b : Blobs) (name uriOrKey : String) (now : Int) :
    Option BlobErr × Blobs :=
  match Blobs.get b name with
  | .error err => (some err, b)
  | .ok e =>
    let uri :=
      if strHasPre uriOrKey "otpauth://" then uriOrKey
      else
        "otpauth://totp/" ++ pathEscape ("upass:" ++ name) ++ "?" ++
          "secret=" ++ queryEscape uriOrKey
    if urlParseOk uri then
      let e := Blob.addSnapshot e
      let e := Blob.touchUpdated e now
      let e := mapSet e keyTwoFactor (.str uri)
      (none, mapSet b name (.map e))
    else (some .twoFactorParse, b)

/-- Models `(Blobs).SetNotes` from format.go: touches `updated` and stores
the converted list under `notes`; no snapshot is recorded. -/
def Blobs.SetNotes (b : Blobs) (name : String) (notes : List String)
    (now : Int) : Option BlobErr × Blobs :=
  match Blobs.get b name with
  | .error err => (some err, b)
  | .ok e =>
    let e := Blob.touchUpdated e now
    let e := mapSet e keyNotes (.list (notes.map .str))
    (none, mapSet b name (.map e))

/-- Models `(Blobs).SetLabels` from format.go: touches `updated` and
stores the converted list under `labels`; no snapshot is recorded. -/
def Blobs.SetLabels (b : Blobs) (name : String) (labels : List String)
    (now : Int) : Option BlobErr × Blobs :=
  match Blobs.get b name with
  | .error err => (some err, b)
  | .ok e =>
    let e := Blob.touchUpdated e now
    let e := mapSet e keyLabels (.list (labels.map .str))
    (none, mapSet b name (.map e))

/-- Models `strings.Split(s, "/")`. -/
def splitSlashAux : List Char → List Char → List String
  | [], acc => [⟨acc.reverse⟩]
  | c :: cs, acc =>
    if c = '/' then (⟨acc.reverse⟩ : String) :: splitSlashAux cs []
    else splitSlashAux cs (c :: acc)

/-- Splits a string on `/`, Go `strings.Split` style: the empty string
yields one empty segment and separators at the ends yield empty
segments. -/
def splitSlash (s : String) : List String := splitSlashAux s.data []

/-- Models `fuzzy.MatchFold` (github.com/lithammer/fuzzysearch) on char
lists: the greedy loop that scans the target for the source's characters
in order, folding case on both sides at each comparison. -/
def matchFoldAux : List Char → List Char → Bool
  | [], _ => true
  | _ :: _, [] => false
  | s :: ss, t :: ts =>
    if s.toLower = t.toLower then matchFoldAux ss ts
    else matchFoldAux (s :: ss) ts

/-- Models `fuzzy.MatchFold`: case-insensitive fuzzy subsequence match
(ASCII case folding, like the rest of this development). -/
def fuzzyMatchFold (source target : String) : Bool :=
  matchFoldAux source.data target.data

/-- Models `(Blobs).Find` from format.go: split the search on `/`, keep
exactly the names with the same number of `/`-segments whose every segment
fuzzy-matches the corresponding search segment. -/
def Blobs.Find (b : Blobs) (search : String) : List String :=
  let fragments := splitSlash search
  (b.map Prod.fst).filter fun k =>
    let keyFrags := splitSlash k
    keyFrags.length == fragments.length &&
      (List.zip fragments keyFrags).all fun p => fuzzyMatchFold p.1 p.2

/-- Kind test matching the switch statement of the snapshot copy: the
dynamic types it retains. -/
def keptKind : Value → Bool
  | .str _ => true
  | .flt _ => true
  | .int _ => true
  | .list _ => true
  | _ => false

/-- Definition following the spec's words for claim C4: the value kinds a
snapshot is said to preserve, namely text, integer (a float64 being the
tolerated integer encoding, SPEC §6), or text list, i.e. a list all of
whose elements are text. -/
def specSnapshotKind : Value → Bool
  | .str _ => true
  | .int _ => true
  | .flt _ => true
  | .list l => l.all fun v => match v with | .str _ => true | _ => false
  | _ => false

theorem mapGet_mapSet_self (m : List (String × Value)) (k : String)
    (v : Value) : mapGet (mapSet m k v) k = some v := by
  induction m with
  | nil => simp [mapGet, mapSet]
  | cons p rest ih =>
    by_cases h : p.1 = k
    · simp [mapSet, h, mapGet]
    · simp [mapSet, h, mapGet, ih]

theorem mapGet_mapSet_ne (m : List (String × Value)) (k k1 : String)
    (v : Value) (h : k1 ≠ k) : mapGet (mapSet m k v) k1 = mapGet m k1 := by
  have h' : ¬k = k1 := fun hh => h hh.symm
  induction m with
  | nil => simp [mapGet, mapSet, h']
  | cons p rest ih =>
    by_cases hp : p.1 = k
    · simp [mapSet, hp, mapGet, h']
    · simp only [mapSet, hp, if_neg, mapGet, ite_false]
      by_cases hk : p.1 = k1
      · simp [hk]
      · simp [hk, ih]

theorem mapGet_eq_none_of_not_mem (m : List (String × Value)) (k : String)
    (h : k ∉ m.map Prod.fst) : mapGet m k = none := by
  induction m with
  | nil => rfl
  | cons p rest ih =>
    simp only [List.map_cons, List.mem_cons] at h
    push_neg at h
    have h1 : ¬p.1 = k := fun hh => h.1 hh.symm
    simp [mapGet, h1, ih h.2]

theorem mapGet_filter (p : String × Value → Bool)
    (m : List (String × Value)) (hnd : (m.map Prod.fst).Nodup) (k : String) :
    mapGet (m.filter p) k =
      match mapGet m k with
      | some v => if p (k, v) then some v else none
      | none => none := by
  induction m with
  | nil => rfl
  | cons q rest ih =>
    simp only [List.map_cons, List.nodup_cons] at hnd
    by_cases hk : q.1 = k
    · subst hk
      have hq : (q.1, q.2) = q := rfl
      by_cases hp : p q = true
      · simp [List.filter_cons, hp, mapGet, hq]
      · have hnot : q.1 ∉ (rest.filter p).map Prod.fst := by
          intro hmem
          rcases List.mem_map.mp hmem with ⟨x, hx, hfst⟩
          exact hnd.1 (List.mem_map.mpr ⟨x, List.mem_of_mem_filter hx, hfst⟩)
        have hrest := mapGet_eq_none_of_not_mem (rest.filter p) q.1 hnot
        simp [List.filter_cons, hp, mapGet, hq, hrest]
    · by_cases hp : p q = true
      · simp [List.filter_cons, hp, mapGet, hk, ih hnd.2]
      · simp [List.filter_cons, hp, mapGet, hk, ih hnd.2]

theorem sublist_cons_of_ne {α : Type} {a b : α} {l1 l2 : List α}
    (h : a ≠ b) :
    List.Sublist (a :: l1) (b :: l2) ↔ List.Sublist (a :: l1) l2 := by
  constructor
  · intro hs
    cases hs with
    | cons _ h1 => exact h1
    | cons₂ _ h1 => exact (h rfl).elim
  · intro hs
    exact hs.cons b

/-- Correctness of the greedy loop of `fuzzy.MatchFold`: it succeeds
exactly when the case-folded source is a subsequence of the case-folded
target. -/
theorem matchFoldAux_iff_sublist (t s : List Char) :
    matchFoldAux s t = true ↔
      List.Sublist (s.map Char.toLower) (t.map Char.toLower) := by
  induction t generalizing s with
  | nil =>
    cases s with
    | nil => simp [matchFoldAux]
    | cons c cs => simp [matchFoldAux]
  | cons tc ts ih =>
    cases s with
    | nil => simp [matchFoldAux, List.nil_sublist]
    | cons sc ss =>
      simp only [matchFoldAux, List.map_cons]
      by_cases h : sc.toLower = tc.toLower
      · rw [if_pos h, ih ss, h, List.cons_sublist_cons]
      · rw [if_neg h, ih (sc :: ss), List.map_cons,
          sublist_cons_of_ne h]

theorem fuzzyMatchFold_iff_sublist (source target : String) :
    fuzzyMatchFold source target = true ↔
      List.Sublist (source.data.map Char.toLower)
        (target.data.map Char.toLower) :=
  matchFoldAux_iff_sublist target.data source.data

/-- Claim C6: a name is returned by Find exactly when it is a key of the
store, its slash-segmentation has the same length as the query's, and each
query segment is a case-folded subsequence of the corresponding name
segment (stated with Forall₂, which forces equal segment counts). -/
theorem claim_C6 (b : Blobs) (search k : String) :
    k ∈ Blobs.Find b search ↔
      k ∈ b.map Prod.fst ∧
        List.Forall₂
          (fun q c => List.Sublist (q.data.map Char.toLower)
            (c.data.map Char.toLower))
          (splitSlash search) (splitSlash k) := by
  unfold Blobs.Find
  rw [List.mem_filter]
  refine and_congr_right fun _ => ?_
  rw [List.forall₂_iff_zip]
  rw [Bool.and_eq_true, beq_iff_eq, List.all_eq_true]
  constructor
  · rintro ⟨hlen, hall⟩
    refine ⟨hlen.symm, ?_⟩
    intro q c hqc
    exact (fuzzyMatchFold_iff_sublist q c).mp (hall (q, c) hqc)
  · rintro ⟨hlen, hall⟩
    refine ⟨hlen.symm, ?_⟩
    intro p hp
    exact (fuzzyMatchFold_iff_sublist p.1 p.2).mpr (hall hp)

/-- Claim C1, evaluated at the failing input: `Set` on the entry `acct`
with key `user` and value `bob` succeeds, but the resulting entry holds
`bob` under the key `acct` (the entry's own name) while `user` stays
unset, because the source executes `blob.B[name] = value` instead of
`blob.B[key] = value`. -/
theorem claim_C1 :
    ∃ e1 : Entry,
      Blobs.Set [("acct", Value.map [])] "acct" "user" "bob" 10 =
        (none, [("acct", Value.map e1)]) ∧
      mapGet e1 "user" = none ∧
      mapGet e1 "acct" = some (Value.str "bob") :=
  ⟨[(keySnapshots, Value.list [Value.map []]), (keyUpdated, Value.int 10),
    ("acct", Value.str "bob")], rfl, rfl, rfl⟩

/-- Claim C2, evaluated at the failing input: a counter-based
`otpauth://hotp/...` URI parses, is of non-TOTP type, and is nevertheless
stored by `SetTwofactor` with no error, because the source checks only
that `otp.NewKeyFromURL` parses the URI and never inspects the key
type. -/
theorem claim_C2 :
    ∃ e1 : Entry,
      urlParseOk "otpauth://hotp/x?secret=JBSWY3DPEHPK3PXP" = true ∧
      keyTypeOf "otpauth://hotp/x?secret=JBSWY3DPEHPK3PXP" = "hotp" ∧
      Blobs.SetTwofactor [("acct", Value.map [])] "acct"
          "otpauth://hotp/x?secret=JBSWY3DPEHPK3PXP" 10 =
        (none, [("acct", Value.map e1)]) ∧
      mapGet e1 keyTwoFactor =
        some (Value.str "otpauth://hotp/x?secret=JBSWY3DPEHPK3PXP") :=
  ⟨[(keySnapshots, Value.list [Value.map []]), (keyUpdated, Value.int 10),
    (keyTwoFactor, Value.str "otpauth://hotp/x?secret=JBSWY3DPEHPK3PXP")],
    rfl, rfl, rfl, rfl⟩

/-- Claim C3, evaluated at the failing input: after `Set(acct,user,a)`
then `Set(acct,user,b)` on an entry with no prior snapshots,
`NSnapshots` is 2 and `Snapshot(0)` is the pre-second-mutation state as
claimed, but that snapshot has no `user` field: it holds `"a"` under the
key `acct`, since `Set` writes the value under the entry name. -/
theorem claim_C3 :
    ∃ e2 snap : Entry,
      (Blobs.Set [("acct", Value.map [])] "acct" "user" "a" 10).1 = none ∧
      Blobs.Set (Blobs.Set [("acct", Value.map [])] "acct" "user" "a" 10).2
          "acct" "user" "b" 20 = (none, [("acct", Value.map e2)]) ∧
      Blob.NSnapshots e2 = .ok 2 ∧
      Blob.Snapshot e2 0 = .ok snap ∧
      mapGet snap "user" = none ∧
      mapGet snap "acct" = some (Value.str "a") :=
  ⟨[(keySnapshots, Value.list [Value.map [],
      Value.map [(keyUpdated, Value.int 10), ("acct", Value.str "a")]]),
    (keyUpdated, Value.int 20), ("acct", Value.str "b")],
   [(keyUpdated, Value.int 10), ("acct", Value.str "a")],
   rfl, rfl, rfl, rfl, rfl, rfl⟩

/-- Counterexample to claim C4 as stated: a field holding a list whose
element is an integer is not of kind text, integer or text-list, yet the
snapshot copy keeps it (the source keeps every `[]interface{}`
value). -/
theorem claim_C4_counterexample :
    specSnapshotKind (Value.list [Value.int 5]) = false ∧
    mapGet (Blob.snapshot [("x", Value.list [Value.int 5])]) "x" =
      some (Value.list [Value.int 5]) :=
  ⟨rfl, rfl⟩

/-- Claim C4 as amended: the snapshot copy never contains a `snapshots`
field, and it contains exactly those fields of the entry whose value kind
is text, number (int64 or float64) or list of any element kind; fields of
any other kind are dropped from the copy without being reported. -/
theorem claim_C4 (e : Entry) (hnd : (e.map Prod.fst).Nodup) (k : String) :
    mapGet (Blob.snapshot e) keySnapshots = none ∧
    mapGet (Blob.snapshot e) k =
      (match mapGet e k with
       | some v =>
         if k ≠ keySnapshots ∧ keptKind v = true then some v else none
       | none => none) := by
  constructor
  · unfold Blob.snapshot
    rw [mapGet_filter _ e hnd keySnapshots]
    cases mapGet e keySnapshots with
    | none => rfl
    | some v => simp
  · unfold Blob.snapshot
    rw [mapGet_filter _ e hnd k]
    cases hv : mapGet e k with
    | none => rfl
    | some v =>
      by_cases hk : k = keySnapshots
      · simp [hk]
      · cases v <;> simp [hk, keptKind]

/-- Witness for claim C4 at a concrete entry: a nested-map field is
dropped from the snapshot. -/
theorem claim_C4_witness :
    mapGet (Blob.snapshot [("user", Value.str "u"), ("m", Value.map []),
      (keySnapshots, Value.list [])]) "m" = none :=
  (claim_C4 [("user", Value.str "u"), ("m", Value.map []),
    (keySnapshots, Value.list [])] (by decide) "m").2

/-- Claim C5: whenever `SetTwofactor` returns an error, the store (hence
every entry, its `updated`, its `snapshots` and its `twofactor` field) is
returned unchanged: every mutation in the source happens after the parse
check. -/
theorem claim_C5 (b : Blobs) (name uri : String) (now : Int)
    (err : BlobErr)
    (h : (Blobs.SetTwofactor b name uri now).1 = some err) :
    (Blobs.SetTwofactor b name uri now).2 = b := by
  unfold Blobs.SetTwofactor at h ⊢
  cases hg : Blobs.get b name with
  | error e =>
    rfl
  | ok e =>
    rw [hg] at h
    by_cases hp : urlParseOk (if strHasPre uri "otpauth://" then uri
        else "otpauth://totp/" ++ pathEscape ("upass:" ++ name) ++ "?" ++
          "secret=" ++ queryEscape uri) = true
    · simp [hp] at h
    · simp [hp]

/-- Witness for claim C5: a URI with an invalid percent-escape fails to
parse and the store comes back unchanged. -/
theorem claim_C5_witness :
    (Blobs.SetTwofactor [("acct", Value.map [])] "acct" "otpauth://%zz"
      5).2 = [("acct", Value.map [])] :=
  claim_C5 [("acct", Value.map [])] "acct" "otpauth://%zz" 5
    BlobErr.twoFactorParse rfl

/-- Claim C7: for an existing entry and a key whose lower-cased form is
protected, `Set` fails with the protected-key error (the modelled panic)
and returns the store unchanged, every field included. -/
theorem claim_C7 (b : Blobs) (name key value : String) (e : Entry)
    (now : Int) (hget : Blobs.get b name = .ok e)
    (hprot : strToLower key ∈ protectedKeys) :
    Blobs.Set b name key value now =
      (some (.protectedKey (strToLower key)), b) := by
  unfold Blobs.Set
  rw [hget]
  simp [hprot]

/-- Witness for claim C7 at the spec's own example `Set(name, notes, x)`. -/
theorem claim_C7_witness :
    Blobs.Set [("acct", Value.map [])] "acct" "notes" "x" 5 =
      (some (BlobErr.protectedKey (strToLower "notes")),
        [("acct", Value.map [])]) :=
  claim_C7 [("acct", Value.map [])] "acct" "notes" "x" [] 5 rfl (by decide)

/-- Congruence for `NSnapshots`: it reads only the `snapshots` field. -/
theorem NSnapshots_congr {e1 e2 : Entry}
    (h : mapGet e1 keySnapshots = mapGet e2 keySnapshots) :
    Blob.NSnapshots e1 = Blob.NSnapshots e2 := by
  unfold Blob.NSnapshots
  rw [h]

/-- Claim C8.  The `SetLabels` and `SetNotes` halves hold in general: both
succeed on an existing entry, write their field and `updated`, leave
`NSnapshots` and every other field unchanged, and record no snapshot.  The
`Set` half fails on the code, shown at the failing input: on an entry
named `snapshots`, a successful `Set` stores the value under the entry
name and thereby turns the `snapshots` field into a string, so
`NSnapshots` goes from `ok 0` to a format error instead of increasing by
one. -/
theorem claim_C8 (b : Blobs) (name : String) (e : Entry)
    (ls ns : List String) (now : Int)
    (hget : Blobs.get b name = .ok e) :
    (Blobs.SetLabels b name ls now).1 = none ∧
    (Blobs.SetNotes b name ns now).1 = none ∧
    (∃ el, (Blobs.SetLabels b name ls now).2 = mapSet b name (Value.map el) ∧
      Blob.NSnapshots el = Blob.NSnapshots e ∧
      mapGet el keyUpdated = some (Value.int now) ∧
      mapGet el keyLabels = some (Value.list (ls.map Value.str)) ∧
      ∀ k, k ≠ keyUpdated → k ≠ keyLabels → mapGet el k = mapGet e k) ∧
    (∃ en, (Blobs.SetNotes b name ns now).2 = mapSet b name (Value.map en) ∧
      Blob.NSnapshots en = Blob.NSnapshots e ∧
      mapGet en keyUpdated = some (Value.int now) ∧
      mapGet en keyNotes = some (Value.list (ns.map Value.str)) ∧
      ∀ k, k ≠ keyUpdated → k ≠ keyNotes → mapGet en k = mapGet e k) ∧
    (Blobs.Set [(keySnapshots, Value.map [])] keySnapshots "user" "x" now =
        (none, [(keySnapshots, Value.map
          [(keySnapshots, Value.str "x"), (keyUpdated, Value.int now)])]) ∧
      Blob.NSnapshots ([] : Entry) = .ok 0 ∧
      Blob.NSnapshots
          [(keySnapshots, Value.str "x"), (keyUpdated, Value.int now)] =
        .error "snapshots are stored in the wrong format") := by
  have hSU : keySnapshots ≠ keyUpdated := by decide
  have hSL : keySnapshots ≠ keyLabels := by decide
  have hSN : keySnapshots ≠ keyNotes := by decide
  have hUL : keyUpdated ≠ keyLabels := by decide
  have hUN : keyUpdated ≠ keyNotes := by decide
  refine ⟨?_, ?_, ?_, ?_, ?_⟩
  · simp [Blobs.SetLabels, hget]
  · simp [Blobs.SetNotes, hget]
  · refine ⟨mapSet (mapSet e keyUpdated (Value.int now)) keyLabels
      (Value.list (ls.map Value.str)), ?_, ?_, ?_, ?_, ?_⟩
    · simp [Blobs.SetLabels, hget, Blob.touchUpdated]
    · exact NSnapshots_congr (by
        rw [mapGet_mapSet_ne _ _ _ _ hSL, mapGet_mapSet_ne _ _ _ _ hSU])
    · rw [mapGet_mapSet_ne _ _ _ _ hUL, mapGet_mapSet_self]
    · rw [mapGet_mapSet_self]
    · intro k hkU hkL
      rw [mapGet_mapSet_ne _ _ _ _ hkL, mapGet_mapSet_ne _ _ _ _ hkU]
  · refine ⟨mapSet (mapSet e keyUpdated (Value.int now)) keyNotes
      (Value.list (ns.map Value.str)), ?_, ?_, ?_, ?_, ?_⟩
    · simp [Blobs.SetNotes, hget, Blob.touchUpdated]
    · exact NSnapshots_congr (by
        rw [mapGet_mapSet_ne _ _ _ _ hSN, mapGet_mapSet_ne _ _ _ _ hSU])
    · rw [mapGet_mapSet_ne _ _ _ _ hUN, mapGet_mapSet_self]
    · rw [mapGet_mapSet_self]
    · intro k hkU hkN
      rw [mapGet_mapSet_ne _ _ _ _ hkN, mapGet_mapSet_ne _ _ _ _ hkU]
  · exact ⟨rfl, rfl, rfl⟩

/-- Witness for claim C8 at a concrete store. -/
theorem claim_C8_witness :
    (Blobs.SetLabels [("acct", Value.map [])] "acct" ["l"] 5).1 = none :=
  (claim_C8 [("acct", Value.map [])] "acct" [] ["l"] ["n"] 5 rfl).1

/-- Claim C9: when the `snapshots` field holds a non-list value, the
snapshot engine does not fail: `addSnapshot` silently replaces it with the
one-element list holding only the fresh pre-mutation snapshot, and the
snapshotting mutations `Set` (unprotected key) and `SetTwofactor`
(parseable URI) succeed on such an entry. -/
theorem claim_C9 (b : Blobs) (name key value uri : String) (e : Entry)
    (v : Value) (now : Int)
    (hget : Blobs.get b name = .ok e)
    (hv : mapGet e keySnapshots = some v)
    (hnl : ∀ l, v ≠ Value.list l)
    (hkey : strToLower key ∉ protectedKeys)
    (huri : strHasPre uri "otpauth://" = true)
    (hparse : urlParseOk uri = true) :
    mapGet (Blob.addSnapshot e) keySnapshots =
      some (Value.list [Value.map (Blob.snapshot e)]) ∧
    (Blobs.Set b name key value now).1 = none ∧
    (Blobs.SetTwofactor b name uri now).1 = none := by
  refine ⟨?_, ?_, ?_⟩
  · unfold Blob.addSnapshot
    rw [hv]
    cases v
    case list l => exact (hnl l rfl).elim
    all_goals exact mapGet_mapSet_self e keySnapshots _
  · simp [Blobs.Set, hget, hkey]
  · simp [Blobs.SetTwofactor, hget, huri, hparse]

/-- Witness for claim C9 on an entry whose `snapshots` field holds a
string. -/
theorem claim_C9_witness :
    mapGet (Blob.addSnapshot [(keySnapshots, Value.str "junk")])
        keySnapshots =
      some (Value.list
        [Value.map (Blob.snapshot [(keySnapshots, Value.str "junk")])]) :=
  (claim_C9 [("acct", Value.map [(keySnapshots, Value.str "junk")])]
    "acct" "user" "v" "otpauth://totp/a?secret=B"
    [(keySnapshots, Value.str "junk")] (Value.str "junk") 5 rfl rfl
    (fun _ h => Value.noConfusion h) (by decide) (by decide)
    (by decide)).1

/-- Claim C10: `User` and `Pass` return the empty string when the field is
absent and the string when the field holds text; on any other stored value
the unchecked type assertion panics. -/
theorem claim_C10 (e : Entry) :
    (mapGet e keyUser = none → Blob.User e = .ok "") ∧
    (∀ s, mapGet e keyUser = some (Value.str s) → Blob.User e = .ok s) ∧
    (∀ v, mapGet e keyUser = some v → (∀ s, v ≠ Value.str s) →
      Blob.User e = .panicked) ∧
    (mapGet e keyPass = none → Blob.Pass e = .ok "") ∧
    (∀ s, mapGet e keyPass = some (Value.str s) → Blob.Pass e = .ok s) ∧
    (∀ v, mapGet e keyPass = some v → (∀ s, v ≠ Value.str s) →
      Blob.Pass e = .panicked) := by
  refine ⟨?_, ?_, ?_, ?_, ?_, ?_⟩
  · intro h; unfold Blob.User; rw [h]
  · intro s h; unfold Blob.User; rw [h]
  · intro v h hns
    unfold Blob.User
    rw [h]
    cases v
    case str s => exact (hns s rfl).elim
    all_goals rfl
  · intro h; unfold Blob.Pass; rw [h]
  · intro s h; unfold Blob.Pass; rw [h]
  · intro v h hns
    unfold Blob.Pass
    rw [h]
    cases v
    case str s => exact (hns s rfl).elim
    all_goals rfl

/-- Witness for claim C10: absent field, text field and a panicking
integer-valued field. -/
theorem claim_C10_witness :
    Blob.User ([] : Entry) = .ok "" ∧
    Blob.User [(keyUser, Value.str "bob")] = .ok "bob" ∧
    Blob.User [(keyUser, Value.int 3)] = .panicked ∧
    Blob.Pass [(keyPass, Value.list [])] = .panicked :=
  ⟨(claim_C10 []).1 rfl,
   (claim_C10 [(keyUser, Value.str "bob")]).2.1 "bob" rfl,
   (claim_C10 [(keyUser, Value.int 3)]).2.2.1 (Value.int 3) rfl
     (fun _ h => Value.noConfusion h),
   (claim_C10 [(keyPass, Value.list [])]).2.2.2.2.2 (Value.list []) rfl
     (fun _ h => Value.noConfusion h)⟩

end Blobformat
